import Mathlib

/-! # gochantcpbridge: a shallow embedding of `gochantcpbridge.go`

The bridge relays `CustomMessage` envelopes between two Go channels and a TLS
connection.  The embedding keeps the goroutine bodies of the source as functions over an
explicit system state `Sys` (the bridge struct, the state of every connection, and a
record of the calls made to the operating system).  Loops that never terminate in the
source (`for { ... }`, the self-recursive reconnect) take a fuel argument.  The calls of
`connectToRemoteAndRead` that are on the stack are counted (`Sys.depth`): the reconnect
is a call of itself, and the runtime ends the process when the stack is full.

What the source obtains from outside the repository is kept as narrow as possible:

* the file system, the TLS stack and the network are the fields of `Env` and the
  state of the connections (`ConnState`): what the peer sends, and after how many
  writes, if ever, the transport fails;
* `encoding/gob` is modelled at the level of its stream messages (`Frame`): a type
  definition message, sent once per `Encoder`, and a value message.  The `Decoder`
  remembers the type ids it has received and rejects a second definition of one
  (`gob: duplicate type received`).  An interface value of an unregistered type is
  an encode error;
* a method call on a nil interface (`net.Conn`, `net.Listener`) is the outcome
  `panicked`;
* `log.Println` / `log.Printf` have no effect on the state and are left out; `log.Fatal`
  is the outcome `Outcome.fatal`.
-/

namespace GoChanTcpBridge

/-! ## Data model -/

/-- Dynamic value stored in the `Content interface{}` field of a message.
`unregistered` is a value of a concrete Go type that was never given to `gob.Register`;
gob refuses to encode such a value. -/
inductive Payload where
  | null
  | str (s : String)
  | int (i : Int)
  | unregistered (typeName : String)
  deriving DecidableEq

/-- Source: `type CustomMessage struct { Type string; Content interface{} }`.
The field `Type` is written `Type_` (a reserved word in Lean). -/
structure CustomMessage where
  Type_ : String
  Content : Payload
  deriving DecidableEq

/-- Errors returned by the library calls the source makes. -/
inductive GoError where
  | EOF
  | unexpectedEOF
  | duplicateType
  | typeNotDefined
  | malformed
  | notRegistered
  | writeFailed
  | readFailed
  | badKeyPair
  | bindFailed
  | acceptFailed
  | dialFailed
  | noSystemRoots
  deriving DecidableEq

/-- Identity of a `net.Conn`. -/
abbrev Conn := Nat

/-- Identity of a `net.Listener`. -/
abbrev Listener := Nat

/-- A `tls.Certificate` (opaque handle). -/
abbrev Certificate := Nat

/-- A `*x509.CertPool`: the names of the trust anchors it holds. -/
abbrev CertPool := List String

/-- The two fields of `tls.Config` that the source sets. -/
structure TLSConfig where
  Certificates : List Certificate
  RootCAs : Option CertPool
  deriving DecidableEq

/-! ## encoding/gob at the level of stream messages -/

/-- One message of a gob stream. -/
inductive Frame where
  | typeDef (id : Nat)
  | value (id : Nat) (msg : CustomMessage)
  | corrupt
  deriving DecidableEq

/-- Lowest type id gob grants to a user type (`firstUserId`). -/
def firstUserId : Nat := 64

/-- Type id under which `CustomMessage` travels (the first user type of the process). -/
def customMessageTypeId : Nat := 65

/-- State of one endpoint of a connection. `written` are the frames this endpoint has
put on the wire, oldest first. `incoming` are the frames the peer has sent and that have
not been read yet; when it is exhausted the peer has closed its side (end of stream).
`writesLeft` is the number of further writes the transport will carry before it fails
(`none`: it does not fail). `closes` counts the calls of `Close`. -/
structure ConnState where
  written : List Frame
  incoming : List Frame
  writesLeft : Option Nat
  closes : Nat
  deriving DecidableEq

/-- `net.Conn.Write` of one gob message. -/
def ConnState.Write (c : ConnState) (f : Frame) : Except GoError ConnState :=
  if 0 < c.closes then .error .writeFailed
  else
    match c.writesLeft with
    | some 0 => .error .writeFailed
    | some (k + 1) => .ok { c with written := c.written ++ [f], writesLeft := some k }
    | none => .ok { c with written := c.written ++ [f] }

/-- `net.Conn.Close`. -/
def ConnState.Close (c : ConnState) : ConnState :=
  { c with closes := c.closes + 1 }

/-- A `*gob.Encoder`: the type ids it has already described on its stream. -/
structure Encoder where
  sent : List Nat
  deriving DecidableEq

/-- `gob.NewEncoder(w)`. -/
def NewEncoder : Encoder := { sent := [] }

/-- `(*gob.Encoder).Encode(&msg)` on the writer `w`. Returns the encoder, the writer and
the error (`none` is Go's `nil`).
1. `sendTypeDescriptor`: unless this encoder has sent it, the definition of
   `CustomMessage` is written as a message of its own and remembered.
2. the value is encoded into a buffer; an interface value of an unregistered type is an
   error, and nothing more is written.
3. `writeMessage`: the value message is written. -/
def Encoder.Encode (enc : Encoder) (w : ConnState) (msg : CustomMessage) :
    Encoder × ConnState × Option GoError :=
  let described : Except GoError (Encoder × ConnState) :=
    if customMessageTypeId ∈ enc.sent then .ok (enc, w)
    else
      match w.Write (.typeDef customMessageTypeId) with
      | .error e => .error e
      | .ok w1 => .ok ({ sent := customMessageTypeId :: enc.sent }, w1)
  match described with
  | .error e => (enc, w, some e)
  | .ok (enc1, w1) =>
    match msg.Content with
    | .unregistered _ => (enc1, w1, some .notRegistered)
    | _ =>
      match w1.Write (.value customMessageTypeId msg) with
      | .error e => (enc1, w1, some e)
      | .ok w2 => (enc1, w2, none)

/-- A `*gob.Decoder`: the type ids whose definition it has received (`dec.wireType`). -/
structure Decoder where
  wireType : List Nat
  deriving DecidableEq

/-- `gob.NewDecoder(r)`. -/
def NewDecoder : Decoder := { wireType := [] }

/-- Result of one `Decode`: the message, the decoder and the unread frames, or the
error and the unread frames. -/
inductive DecodeResult where
  | ok (msg : CustomMessage) (dec : Decoder) (rest : List Frame)
  | error (e : GoError) (rest : List Frame)
  deriving DecidableEq

/-- `(*gob.Decoder).decodeTypeSequence` followed by the decoding of the value: reads
messages until a value message arrives.
* end of input: `io.EOF` if nothing was read by this call, else `io.ErrUnexpectedEOF`;
* a type definition (`recvType`): an id below `firstUserId` or one already in
  `wireType` is the error `gob: duplicate type received`; otherwise it is remembered;
* a value of a type never defined is an error; otherwise its message is returned. -/
def Decoder.decodeTypeSequence : List Frame → Decoder → Bool → DecodeResult
  | [], _, firstMessage => .error (if firstMessage then .EOF else .unexpectedEOF) []
  | .corrupt :: rest, _, _ => .error .malformed rest
  | .typeDef id :: rest, dec, _ =>
    if id < firstUserId ∨ id ∈ dec.wireType then .error .duplicateType rest
    else decodeTypeSequence rest { wireType := id :: dec.wireType } false
  | .value id msg :: rest, dec, _ =>
    if id ∈ dec.wireType then .ok msg dec rest else .error .typeNotDefined rest

/-- `decoder.Decode(&msg)` reading from the connection `c`: the message (or error), the
decoder afterwards and the connection with what was read removed. A connection that
this endpoint has closed cannot be read. -/
def Decoder.Decode (dec : Decoder) (c : ConnState) :
    Except GoError CustomMessage × Decoder × ConnState :=
  if 0 < c.closes then (.error .readFailed, dec, c)
  else
    match dec.decodeTypeSequence c.incoming true with
    | .ok msg dec1 rest => (.ok msg, dec1, { c with incoming := rest })
    | .error e rest => (.error e, dec, { c with incoming := rest })

/-! ## Channels -/

/-- A buffered `chan CustomMessage`: its buffered elements, oldest first, and the
capacity given to `make`. -/
structure Chan where
  buf : List CustomMessage
  cap : Nat
  deriving DecidableEq

/-- `make(chan CustomMessage, n)`. -/
def makeChan (n : Nat) : Chan := { buf := [], cap := n }

/-- `ch <- msg`: `none` when the buffer is full (the sender parks). -/
def Chan.send (ch : Chan) (msg : CustomMessage) : Option Chan :=
  if ch.buf.length < ch.cap then some { ch with buf := ch.buf ++ [msg] } else none

/-- `<-ch`: `none` when the buffer is empty (the receiver parks). -/
def Chan.recv (ch : Chan) : Option (CustomMessage × Chan) :=
  match ch.buf with
  | [] => none
  | m :: rest => some (m, { ch with buf := rest })

/-! ## The bridge and the system around it -/

/-- Source: `type GoChannelTCPBridge struct`. A nil `net.Conn` / `net.Listener` is
`none`. -/
structure GoChannelTCPBridge where
  listenAddr : String
  remoteAddr : String
  sendChan : Chan
  receiveChan : Chan
  outboundConn : Option Conn
  inboundListener : Option Listener
  certFile : String
  keyFile : String
  deriving DecidableEq

/-- The goroutines the source starts with `go`. -/
inductive Goroutine where
  | runMainLoop
  | acceptIncomingConnections
  | handleInboundConnection (inboundConn : Conn)
  | connectToRemoteAndRead
  deriving DecidableEq

/-- Calls to the operating system that the properties speak about, in program order. -/
inductive Event where
  | dial (timeoutSec : Nat) (addr : String) (config : TLSConfig)
  | sleep (sec : Nat)
  deriving DecidableEq

/-- What lies outside the repository. `DialWithDialer` and `Accept` take the number of
earlier calls as first argument, so that their answer may change over time.
`maxDepth` is the number of nested calls of `connectToRemoteAndRead` that fit under the
stack limit of the Go runtime; how many that is depends on the size of a frame and is
left open. -/
structure Env where
  LoadX509KeyPair : String → String → Except GoError Certificate
  Listen : String → TLSConfig → Except GoError Listener
  SystemCertPool : Except GoError CertPool
  DialWithDialer : Nat → Nat → String → TLSConfig → Except GoError Conn
  Accept : Nat → Except GoError Conn
  maxDepth : Nat

/-- The state the goroutines of one bridge share. `depth` is the number of calls of
`connectToRemoteAndRead` that are on the stack of the client goroutine. -/
structure Sys where
  bridge : GoChannelTCPBridge
  conns : Conn → ConnState
  listenerCloses : Nat
  dials : Nat
  accepts : Nat
  started : List Goroutine
  trace : List Event
  depth : Nat

/-- How the run of a goroutine body ends. -/
inductive Outcome where
  | returned (s : Sys)
  | blocked (s : Sys)
  | panicked (s : Sys)
  | fatal (s : Sys)
  | outOfFuel (s : Sys)

/-- The state an outcome carries. -/
def Outcome.sys : Outcome → Sys
  | .returned s => s
  | .blocked s => s
  | .panicked s => s
  | .fatal s => s
  | .outOfFuel s => s

/-- A `defer conn.Close()` placed in front of a body: the close runs when the body
returns; it does not run when the process exits (`log.Fatal`) nor while the body is still
running. A panic unwinds the stack and runs it as well. -/
def deferConnClose (c : Conn) : Outcome → Outcome
  | .returned s => .returned { s with conns := Function.update s.conns c (s.conns c).Close }
  | .panicked s => .panicked { s with conns := Function.update s.conns c (s.conns c).Close }
  | o => o

/-- A `defer bridge.inboundListener.Close()` placed in front of a body. -/
def deferListenerClose : Outcome → Outcome
  | .returned s => .returned { s with listenerCloses := s.listenerCloses + 1 }
  | .panicked s => .panicked { s with listenerCloses := s.listenerCloses + 1 }
  | o => o

/-- The end of a call of `connectToRemoteAndRead`: when the body returns or panics its
frame leaves the stack. -/
def popFrame : Outcome → Outcome
  | .returned s => .returned { s with depth := s.depth - 1 }
  | .panicked s => .panicked { s with depth := s.depth - 1 }
  | o => o

/-! ## Constructors -/

/-- What a constructor hands back: Go's pair `(*GoChannelTCPBridge, error)` (`none` is
`nil`) and the goroutines it has started. -/
structure Constructed where
  bridge : Option GoChannelTCPBridge
  err : Option GoError
  started : List Goroutine
  deriving DecidableEq

/-- Source: `createSecureListener`. -/
def createSecureListener (env : Env) (listenAddr certFile keyFile : String) :
    Except GoError Listener :=
  match env.LoadX509KeyPair certFile keyFile with
  | .error err => .error err
  | .ok cert => env.Listen listenAddr { Certificates := [cert], RootCAs := none }

/-- Source: `createSecureDialer`. The parameter `certFile` is not read by the body. -/
def createSecureDialer (env : Env) (_certFile : String) : Except GoError TLSConfig :=
  match env.SystemCertPool with
  | .error err => .error err
  | .ok certPool => .ok { Certificates := [], RootCAs := some certPool }

/-- Source: `NewServer`. -/
def NewServer (env : Env) (listenAddr certFile keyFile : String) : Constructed :=
  let bridge : GoChannelTCPBridge :=
    { listenAddr := listenAddr
      remoteAddr := ""
      certFile := certFile
      keyFile := keyFile
      sendChan := makeChan 100
      receiveChan := makeChan 100
      outboundConn := none
      inboundListener := none }
  match createSecureListener env listenAddr certFile keyFile with
  | .error err => { bridge := none, err := some err, started := [] }
  | .ok listener =>
    { bridge := some { bridge with inboundListener := some listener }
      err := none
      started := [.runMainLoop, .acceptIncomingConnections] }

/-- Source: `NewClient`. -/
def NewClient (remoteAddr certFile : String) : Constructed :=
  let bridge : GoChannelTCPBridge :=
    { listenAddr := ""
      remoteAddr := remoteAddr
      certFile := certFile
      keyFile := ""
      sendChan := makeChan 100
      receiveChan := makeChan 100
      outboundConn := none
      inboundListener := none }
  { bridge := some bridge
    err := none
    started := [.runMainLoop, .connectToRemoteAndRead] }

/-- The system right after a constructor has returned `bridge`: the network is `conns`,
no call to the operating system has been made by a goroutine yet. -/
def Sys.start (bridge : GoChannelTCPBridge) (started : List Goroutine)
    (conns : Conn → ConnState) : Sys :=
  { bridge := bridge
    conns := conns
    listenerCloses := 0
    dials := 0
    accepts := 0
    started := started
    trace := []
    depth := 0 }

/-! ## The send loop -/

/-- How one iteration of a `for` loop ends. -/
inductive Iteration where
  | next (s : Sys)
  | blocked (s : Sys)
  | panicked (s : Sys)

/-- One iteration of the loop of `runMainLoop`:
`msg := <-bridge.sendChan` and then `gob.NewEncoder(bridge.outboundConn).Encode(&msg)`,
whose error is logged only. With a nil `outboundConn` the encoder calls `Write` on a nil
interface, a run-time panic (nil pointer dereference) that nothing recovers. -/
def runMainLoopIteration (s : Sys) : Iteration :=
  match s.bridge.sendChan.recv with
  | none => .blocked s
  | some (msg, ch) =>
    let s1 : Sys := { s with bridge := { s.bridge with sendChan := ch } }
    match s1.bridge.outboundConn with
    | none => .panicked s1
    | some c =>
      let r := NewEncoder.Encode (s1.conns c) msg
      .next { s1 with conns := Function.update s1.conns c r.2.1 }

/-- Source: `runMainLoop`. -/
def runMainLoop : Nat → Sys → Outcome
  | 0, s => .outOfFuel s
  | fuel + 1, s =>
    match runMainLoopIteration s with
    | .next s1 => runMainLoop fuel s1
    | .blocked s1 => .blocked s1
    | .panicked s1 => .panicked s1

/-! ## Server side -/

/-- The loop of `handleInboundConnection`: decode, on an error `break`, else
`bridge.receiveChan <- msg`. -/
def handleInboundLoop : Nat → Sys → Conn → Decoder → Outcome
  | 0, s, _, _ => .outOfFuel s
  | fuel + 1, s, inboundConn, decoder =>
    match decoder.Decode (s.conns inboundConn) with
    | (.error _, _, w) =>
      .returned { s with conns := Function.update s.conns inboundConn w }
    | (.ok msg, decoder1, w) =>
      let s1 : Sys := { s with conns := Function.update s.conns inboundConn w }
      match s1.bridge.receiveChan.send msg with
      | none => .blocked s1
      | some ch =>
        handleInboundLoop fuel { s1 with bridge := { s1.bridge with receiveChan := ch } }
          inboundConn decoder1

/-- Source: `handleInboundConnection`. -/
def handleInboundConnection (fuel : Nat) (s : Sys) (inboundConn : Conn) : Outcome :=
  deferConnClose inboundConn (handleInboundLoop fuel s inboundConn NewDecoder)

/-- The loop of `acceptIncomingConnections`: `Accept`, on an error `return`, else
`go bridge.handleInboundConnection(inboundConn)`. A closed listener refuses. -/
def acceptLoop : Nat → Env → Sys → Outcome
  | 0, _, s => .outOfFuel s
  | fuel + 1, env, s =>
    let s1 : Sys := { s with accepts := s.accepts + 1 }
    match (if 0 < s.listenerCloses then .error .acceptFailed else env.Accept s.accepts) with
    | .error _ => .returned s1
    | .ok inboundConn =>
      acceptLoop fuel env
        { s1 with started := s1.started ++ [.handleInboundConnection inboundConn] }

/-- Source: `acceptIncomingConnections`. On a bridge without listener the deferred
`bridge.inboundListener.Close` is a method value of a nil interface: a panic. -/
def acceptIncomingConnections (fuel : Nat) (env : Env) (s : Sys) : Outcome :=
  match s.bridge.inboundListener with
  | none => .panicked s
  | some _ => deferListenerClose (acceptLoop fuel env s)

/-! ## Client side -/

mutual

/-- Source: `connectToRemoteAndRead`, up to the decode loop. Every call, the calls of
itself included (lines 138 and 157), puts a frame on the stack of the goroutine; a call
for which the stack has no room ends the process (`fatal error: stack overflow`). -/
def connectToRemoteAndRead : Nat → Env → Sys → Outcome
  | 0, _, s => .outOfFuel s
  | fuel + 1, env, s0 =>
    if env.maxDepth ≤ s0.depth then .fatal s0
    else
      let s : Sys := { s0 with depth := s0.depth + 1 }
      match createSecureDialer env s.bridge.certFile with
      | .error _ => .fatal s
      | .ok config =>
        let s1 : Sys :=
          { s with dials := s.dials + 1
                   trace := s.trace ++ [.dial 3 s.bridge.remoteAddr config] }
        match env.DialWithDialer s.dials 3 s.bridge.remoteAddr config with
        | .error _ =>
          popFrame
            (connectToRemoteAndRead fuel env { s1 with trace := s1.trace ++ [.sleep 3] })
        | .ok outboundConn =>
          popFrame
            (deferConnClose outboundConn
              (connectedLoop fuel env
                { s1 with bridge := { s1.bridge with outboundConn := some outboundConn } }
                outboundConn NewDecoder))

/-- The decode loop of `connectToRemoteAndRead`: decode; on an error sleep 3 seconds,
call `connectToRemoteAndRead` and `break` once it has returned; else
`bridge.sendChan <- msg`. -/
def connectedLoop : Nat → Env → Sys → Conn → Decoder → Outcome
  | 0, _, s, _, _ => .outOfFuel s
  | fuel + 1, env, s, outboundConn, decoder =>
    match decoder.Decode (s.conns outboundConn) with
    | (.error _, _, w) =>
      connectToRemoteAndRead fuel env
        { s with conns := Function.update s.conns outboundConn w
                 trace := s.trace ++ [.sleep 3] }
    | (.ok msg, decoder1, w) =>
      let s1 : Sys := { s with conns := Function.update s.conns outboundConn w }
      match s1.bridge.sendChan.send msg with
      | none => .blocked s1
      | some ch =>
        connectedLoop fuel env { s1 with bridge := { s1.bridge with sendChan := ch } }
          outboundConn decoder1

end

/-! ## Application interface -/

/-- Source: `Send`. `none`: the caller parks on a full queue. -/
def Send (s : Sys) (msg : CustomMessage) : Option Sys :=
  match s.bridge.sendChan.send msg with
  | none => none
  | some ch => some { s with bridge := { s.bridge with sendChan := ch } }

/-- Source: `Receive`. `none`: the caller parks on an empty queue. -/
def Receive (s : Sys) : Option (CustomMessage × Sys) :=
  match s.bridge.receiveChan.recv with
  | none => none
  | some (msg, ch) => some (msg, { s with bridge := { s.bridge with receiveChan := ch } })

/-- Source: `Close`. -/
def Close (s : Sys) : Sys :=
  let s1 : Sys :=
    match s.bridge.outboundConn with
    | some c => { s with conns := Function.update s.conns c (s.conns c).Close }
    | none => s
  match s1.bridge.inboundListener with
  | some _ => { s1 with listenerCloses := s1.listenerCloses + 1 }
  | none => s1

/-! ## Example inputs -/

/-- A connection on which nothing has happened and whose peer sends `incoming`. -/
def freshConn (incoming : List Frame) : ConnState :=
  { written := [], incoming := incoming, writesLeft := none, closes := 0 }

/-- The envelope of the scenario of the specification. -/
def ping : CustomMessage := { Type_ := "ping", Content := .str "hello" }

/-- A second envelope. -/
def pong : CustomMessage := { Type_ := "pong", Content := .int 7 }

/-- The bridge `NewClient "srv:9443" "my-ca.pem"` returns. -/
def clientBridge : GoChannelTCPBridge :=
  { listenAddr := ""
    remoteAddr := "srv:9443"
    certFile := "my-ca.pem"
    keyFile := ""
    sendChan := makeChan 100
    receiveChan := makeChan 100
    outboundConn := none
    inboundListener := none }

/-- The bridge `NewServer ":9443" "cert.pem" "key.pem"` returns when the listener is 7. -/
def serverBridge : GoChannelTCPBridge :=
  { listenAddr := ":9443"
    remoteAddr := ""
    certFile := "cert.pem"
    keyFile := "key.pem"
    sendChan := makeChan 100
    receiveChan := makeChan 100
    outboundConn := none
    inboundListener := some 7 }

/-- An environment: the key pair loads, the address binds to listener 7, the system
trust store holds one root, the first dial reaches connection 1, the second fails, the
third reaches connection 2, later ones fail; one peer (connection 1) is accepted; the
stack has room for a million nested calls. -/
def exampleEnv : Env :=
  { LoadX509KeyPair := fun _ _ => .ok 1
    Listen := fun _ _ => .ok 7
    SystemCertPool := .ok ["system-root"]
    DialWithDialer := fun n _ _ _ =>
      if n = 0 then .ok 1 else if n = 2 then .ok 2 else .error .dialFailed
    Accept := fun n => if n = 0 then .ok 1 else .error .acceptFailed
    maxDepth := 1000000 }

/-- An environment in which the server is unreachable: every dial fails. -/
def unreachableEnv : Env :=
  { exampleEnv with DialWithDialer := fun _ _ _ _ => .error .dialFailed }

/-- An environment in which the system trust store cannot be loaded. -/
def noRootsEnv : Env :=
  { exampleEnv with SystemCertPool := .error .noSystemRoots }

/-- An environment in which the server is unreachable and the stack has room for three
nested calls only. -/
def smallStackEnv : Env :=
  { unreachableEnv with maxDepth := 3 }

/-- An environment without a loadable key pair. -/
def badKeyEnv : Env :=
  { exampleEnv with LoadX509KeyPair := fun _ _ => .error .badKeyPair }

/-- An environment in which the listen address is taken. -/
def busyPortEnv : Env :=
  { exampleEnv with Listen := fun _ _ => .error .bindFailed }

/-- A network in which the peer of every connection sends `incoming` and closes. -/
def network (incoming : List Frame) : Conn → ConnState :=
  fun _ => freshConn incoming

/-- The client right after `NewClient`, its peer about to send one `ping`. -/
def clientStart : Sys :=
  Sys.start clientBridge [.runMainLoop, .connectToRemoteAndRead]
    (network [.typeDef customMessageTypeId, .value customMessageTypeId ping])

/-- The server right after `NewServer`, its peers about to send `incoming`. -/
def serverStart (incoming : List Frame) : Sys :=
  Sys.start serverBridge [.runMainLoop, .acceptIncomingConnections] (network incoming)

/-- The client right after `NewClient`, its peer closing every connection at once. -/
def clientStartClosed : Sys :=
  Sys.start clientBridge [.runMainLoop, .connectToRemoteAndRead] (network [])

/-- The client once its first dial has reached connection 1 and the connection has
been installed; nothing has been read from it yet. -/
def clientConnected : Sys :=
  (connectToRemoteAndRead 1 exampleEnv clientStartClosed).sys

/-- An outcome in which the goroutine has neither returned nor panicked, so that none
of its deferred calls has run. -/
def Outcome.unfinished : Outcome → Prop
  | .returned _ => False
  | .panicked _ => False
  | _ => True

/-- An envelope whose content has a type that was never registered with gob. -/
def unregisteredMsg : CustomMessage :=
  { Type_ := "blob", Content := .unregistered "main.Blob" }

/-- A client whose outbound connection 1 is installed and healthy and whose queue holds
an envelope gob cannot encode, followed by `pong`. -/
def clientUnencodable : Sys :=
  Sys.start
    { clientBridge with
      outboundConn := some 1
      sendChan := { buf := [unregisteredMsg, pong], cap := 100 } }
    [.runMainLoop, .connectToRemoteAndRead] (network [])

/-- A client whose outbound connection 1 is installed and fails after `k` more writes,
and whose queue holds `ping` and `pong`. -/
def clientBroken (k : Nat) : Sys :=
  Sys.start
    { clientBridge with
      outboundConn := some 1
      sendChan := { buf := [ping, pong], cap := 100 } }
    [.runMainLoop, .connectToRemoteAndRead]
    (fun _ => { written := [], incoming := [], writesLeft := some k, closes := 0 })

/-- The system calls of `n` failed dial attempts: each a dial of `addr` with a timeout of
3 seconds and the configuration `config`, followed by a sleep of 3 seconds. -/
def retries : Nat → String → TLSConfig → List Event
  | 0, _, _ => []
  | n + 1, addr, config => [.dial 3 addr config, .sleep 3] ++ retries n addr config

/-- A stream of 101 envelopes sent through one encoder: one more than the inbound queue
holds. -/
def manyPings : List Frame :=
  .typeDef customMessageTypeId :: List.replicate 101 (.value customMessageTypeId ping)

/-- Whether the goroutine is parked on a queue. -/
def Outcome.isBlocked : Outcome → Bool
  | .blocked _ => true
  | _ => false

/-! ## Vocabulary of the properties -/

/-- The envelopes carried by the value messages of a stream, in order. -/
def envelopes : List Frame → List CustomMessage
  | [] => []
  | .value _ msg :: rest => msg :: envelopes rest
  | _ :: rest => envelopes rest

/-- The statement that, read with decoder `dec`, the connection `c` yields the envelopes
`ms` by successive successful `Decode` calls, that the call after them fails, and that
the connection is `cfin` afterwards. -/
inductive DecodesTo : Decoder → ConnState → List CustomMessage → ConnState → Prop where
  | stop (dec : Decoder) (c : ConnState) (e : GoError) (dec1 : Decoder) (c1 : ConnState) :
      dec.Decode c = (.error e, dec1, c1) → DecodesTo dec c [] c1
  | step (dec : Decoder) (c : ConnState) (m : CustomMessage) (dec1 : Decoder)
      (c1 : ConnState) (ms : List CustomMessage) (c2 : ConnState) :
      dec.Decode c = (.ok m, dec1, c1) → DecodesTo dec1 c1 ms c2 →
      DecodesTo dec c (m :: ms) c2

/-! ## Construction -/

/-- Characterisation of `createSecureListener`: it fails exactly when the key pair
cannot be loaded or the address cannot be bound, with that error. -/
theorem createSecureListener_error_iff (env : Env) (listenAddr certFile keyFile : String)
    (e : GoError) :
    createSecureListener env listenAddr certFile keyFile = .error e ↔
      env.LoadX509KeyPair certFile keyFile = .error e ∨
      ∃ cert, env.LoadX509KeyPair certFile keyFile = .ok cert ∧
        env.Listen listenAddr { Certificates := [cert], RootCAs := none } = .error e := by
  unfold createSecureListener
  cases h : env.LoadX509KeyPair certFile keyFile with
  | error e1 => simp
  | ok cert => simp

/-- Claim C10. `NewServer` reports construction failures synchronously: when the key
pair cannot be loaded, or when it loads and the address cannot be bound, `NewServer`
returns that error, no bridge, and has started no goroutine; when both succeed it
returns no error, has started the send loop and the accept loop, and the bridge holds
the listener, no outbound connection and two empty queues of capacity 100. -/
theorem NewServer_construction (env : Env) (listenAddr certFile keyFile : String) :
    (∀ e, env.LoadX509KeyPair certFile keyFile = .error e →
        NewServer env listenAddr certFile keyFile =
          { bridge := none, err := some e, started := [] }) ∧
    (∀ cert e, env.LoadX509KeyPair certFile keyFile = .ok cert →
        env.Listen listenAddr { Certificates := [cert], RootCAs := none } = .error e →
        NewServer env listenAddr certFile keyFile =
          { bridge := none, err := some e, started := [] }) ∧
    (∀ cert listener, env.LoadX509KeyPair certFile keyFile = .ok cert →
        env.Listen listenAddr { Certificates := [cert], RootCAs := none } = .ok listener →
        ∃ b, NewServer env listenAddr certFile keyFile =
            { bridge := some b, err := none,
              started := [.runMainLoop, .acceptIncomingConnections] } ∧
          b.inboundListener = some listener ∧
          b.outboundConn = none ∧
          b.sendChan = { buf := [], cap := 100 } ∧
          b.receiveChan = { buf := [], cap := 100 } ∧
          b.listenAddr = listenAddr ∧ b.certFile = certFile ∧ b.keyFile = keyFile) := by
  refine ⟨?_, ?_, ?_⟩
  · intro e h
    simp [NewServer, createSecureListener, h]
  · intro cert e h1 h2
    simp [NewServer, createSecureListener, h1, h2]
  · intro cert listener h1 h2
    simp [NewServer, createSecureListener, h1, h2, makeChan]

/-- The three cases of claim C10 at concrete inputs: a key pair that does not load, an
address that does not bind, and a successful construction. -/
theorem NewServer_construction_witness :
    NewServer badKeyEnv ":9443" "cert.pem" "key.pem" =
      { bridge := none, err := some .badKeyPair, started := [] } ∧
    NewServer busyPortEnv ":9443" "cert.pem" "key.pem" =
      { bridge := none, err := some .bindFailed, started := [] } ∧
    ∃ b, NewServer exampleEnv ":9443" "cert.pem" "key.pem" =
        { bridge := some b, err := none,
          started := [.runMainLoop, .acceptIncomingConnections] } ∧
      b.inboundListener = some 7 ∧
      b.outboundConn = none ∧
      b.sendChan = { buf := [], cap := 100 } ∧
      b.receiveChan = { buf := [], cap := 100 } ∧
      b.listenAddr = ":9443" ∧ b.certFile = "cert.pem" ∧ b.keyFile = "key.pem" :=
  ⟨(NewServer_construction badKeyEnv ":9443" "cert.pem" "key.pem").1 .badKeyPair rfl,
   (NewServer_construction busyPortEnv ":9443" "cert.pem" "key.pem").2.1 1 .bindFailed
      rfl rfl,
   (NewServer_construction exampleEnv ":9443" "cert.pem" "key.pem").2.2 1 7 rfl rfl⟩

/-- The example bridges are what the constructors return. -/
theorem example_bridges :
    NewClient "srv:9443" "my-ca.pem" =
      { bridge := some clientBridge, err := none,
        started := [.runMainLoop, .connectToRemoteAndRead] } ∧
    NewServer exampleEnv ":9443" "cert.pem" "key.pem" =
      { bridge := some serverBridge, err := none,
        started := [.runMainLoop, .acceptIncomingConnections] } := by
  constructor <;> rfl

/-! ## Trust anchors of the client -/

/-- Claim C8 fails on the code. `createSecureDialer` does not read `certFile`: for every
environment and every two trust-anchor paths it returns the same configuration, whose
root set, when there is one, is the system trust store; and the client built with
`"my-ca.pem"` dials with the system roots. -/
theorem createSecureDialer_ignores_certFile :
    (∀ (env : Env) (certFile1 certFile2 : String),
        createSecureDialer env certFile1 = createSecureDialer env certFile2) ∧
    (∀ (env : Env) (certFile : String) (config : TLSConfig),
        createSecureDialer env certFile = .ok config →
        env.SystemCertPool = .ok (config.RootCAs.getD [])) ∧
    (connectToRemoteAndRead 1 exampleEnv clientStart).sys.trace =
      [.dial 3 "srv:9443" { Certificates := [], RootCAs := some ["system-root"] }] := by
  refine ⟨fun _ _ _ => rfl, ?_, by decide⟩
  intro env certFile config h
  unfold createSecureDialer at h
  cases hp : env.SystemCertPool with
  | error e => rw [hp] at h; cases h
  | ok pool =>
    rw [hp] at h
    cases h
    rfl

/-! ## The client decode loop -/

/-- One iteration of the client decode loop with a successful decode: the envelope is
appended to `sendChan`; `receiveChan` is not touched. -/
theorem connectedLoop_push (fuel : Nat) (env : Env) (s : Sys) (c : Conn)
    (decoder decoder1 : Decoder) (msg : CustomMessage) (w : ConnState)
    (hdec : decoder.Decode (s.conns c) = (.ok msg, decoder1, w))
    (hroom : s.bridge.sendChan.buf.length < s.bridge.sendChan.cap) :
    connectedLoop (fuel + 1) env s c decoder =
      connectedLoop fuel env
        { s with
          conns := Function.update s.conns c w
          bridge := { s.bridge with
            sendChan := { s.bridge.sendChan with buf := s.bridge.sendChan.buf ++ [msg] } } }
        c decoder1 := by
  rw [connectedLoop]
  simp [hdec, Chan.send, hroom]

/-- Claim C1 fails on the code. The client dials connection 1, on which the peer sends
one `ping`. Once the decode loop has decoded it, `ping` sits in `sendChan` (the outbound
queue), `receiveChan` is empty and `Receive` has nothing to return. -/
theorem client_decoded_envelope_lands_in_sendChan :
    (connectToRemoteAndRead 2 exampleEnv clientStart).sys.bridge.outboundConn = some 1 ∧
    ((connectToRemoteAndRead 2 exampleEnv clientStart).sys.conns 1).incoming = [] ∧
    (connectToRemoteAndRead 2 exampleEnv clientStart).sys.bridge.sendChan.buf = [ping] ∧
    (connectToRemoteAndRead 2 exampleEnv clientStart).sys.bridge.receiveChan.buf = [] ∧
    (Receive (connectToRemoteAndRead 2 exampleEnv clientStart).sys).isNone = true := by
  decide

/-! ## The send loop without a connection -/

/-- With a nil outbound connection and a queued envelope, an iteration of the send loop
takes the envelope off the queue and panics. -/
theorem runMainLoopIteration_nil_conn (s : Sys) (m : CustomMessage)
    (rest : List CustomMessage) (hq : s.bridge.sendChan.buf = m :: rest)
    (hnil : s.bridge.outboundConn = none) :
    runMainLoopIteration s =
      .panicked { s with bridge := { s.bridge with
        sendChan := { s.bridge.sendChan with buf := rest } } } := by
  simp [runMainLoopIteration, Chan.recv, hq, hnil]

/-- Claim C2 fails on the code. On the client just built (no connection yet), after
`Send ping` the queue holds `ping`; the next iteration of `runMainLoop` removes it,
writes it on no connection and panics, and so does the loop as a whole. -/
theorem envelope_sent_before_connection_is_dropped :
    ∃ s1 s2, Send clientStart ping = some s1 ∧
      s1.bridge.outboundConn = none ∧
      s1.bridge.sendChan.buf = [ping] ∧
      runMainLoopIteration s1 = .panicked s2 ∧
      runMainLoop 5 s1 = .panicked s2 ∧
      s2.bridge.sendChan.buf = [] ∧
      s2.bridge.receiveChan.buf = [] ∧
      s2.conns = s1.conns ∧
      ∀ c, (s2.conns c).written = [] :=
  ⟨_, _, rfl, rfl, rfl, rfl, rfl, rfl, rfl, rfl, fun _ => rfl⟩

/-! ## The server never installs an outbound connection -/

/-- The decode loop of a server worker leaves `outboundConn` as it is. -/
theorem handleInboundLoop_outboundConn (fuel : Nat) :
    ∀ (s : Sys) (c : Conn) (decoder : Decoder),
      (handleInboundLoop fuel s c decoder).sys.bridge.outboundConn =
        s.bridge.outboundConn := by
  induction fuel with
  | zero => intro s c decoder; rfl
  | succ n ih =>
    intro s c decoder
    rw [handleInboundLoop]
    rcases hd : decoder.Decode (s.conns c) with ⟨r, decoder1, w⟩
    cases r with
    | error e => rfl
    | ok msg =>
      simp only []
      cases hs : Chan.send s.bridge.receiveChan msg with
      | none => rfl
      | some ch => simp only []; rw [ih]

/-- A deferred close of a connection does not touch the bridge struct. -/
theorem deferConnClose_bridge (c : Conn) (o : Outcome) :
    (deferConnClose c o).sys.bridge = o.sys.bridge := by
  cases o <;> rfl

/-- A server worker leaves `outboundConn` as it is. -/
theorem handleInboundConnection_outboundConn (fuel : Nat) (s : Sys) (c : Conn) :
    (handleInboundConnection fuel s c).sys.bridge.outboundConn = s.bridge.outboundConn := by
  unfold handleInboundConnection
  rw [deferConnClose_bridge, handleInboundLoop_outboundConn]

/-- The accept loop leaves the bridge struct as it is. -/
theorem acceptLoop_bridge (fuel : Nat) (env : Env) :
    ∀ s : Sys, (acceptLoop fuel env s).sys.bridge = s.bridge := by
  induction fuel with
  | zero => intro s; rfl
  | succ n ih =>
    intro s
    rw [acceptLoop]
    simp only []
    split
    · rfl
    · rw [ih]

/-- The accept goroutine leaves the bridge struct, hence `outboundConn`, as it is. -/
theorem acceptIncomingConnections_bridge (fuel : Nat) (env : Env) (s : Sys) :
    (acceptIncomingConnections fuel env s).sys.bridge = s.bridge := by
  unfold acceptIncomingConnections
  split
  · rfl
  · have h := acceptLoop_bridge fuel env s
    revert h
    cases acceptLoop fuel env s <;> exact id

/-- Claim C3 fails on the code. The server just built accepts its first connection, 1:
the accept loop starts a worker for it and leaves `outboundConn` nil; the worker decodes
the peer's `ping` into `receiveChan`, closes the connection and returns, and
`outboundConn` is still nil, not connection 1. An envelope the server then sends makes
the send loop panic. -/
theorem server_accept_leaves_outboundConn_nil :
    ∃ s1 s2 s3 s4,
      acceptIncomingConnections 1 exampleEnv
        (serverStart [.typeDef customMessageTypeId, .value customMessageTypeId ping]) =
          .outOfFuel s1 ∧
      s1.started = [.runMainLoop, .acceptIncomingConnections, .handleInboundConnection 1] ∧
      s1.bridge.outboundConn = none ∧
      handleInboundConnection 2 s1 1 = .returned s2 ∧
      s2.bridge.receiveChan.buf = [ping] ∧
      s2.bridge.outboundConn = none ∧
      Send s2 pong = some s3 ∧
      runMainLoopIteration s3 = .panicked s4 ∧
      s4.bridge.sendChan.buf = [] :=
  ⟨_, _, _, _, rfl, rfl, rfl, rfl, rfl, rfl, rfl, rfl, rfl⟩

/-! ## A fresh encoder for every envelope -/

/-- Claim C4 fails on the code for two envelopes. The application of a connected
client calls `Send ping` and `Send pong`. The send loop encodes them on connection 1,
each with an encoder of its own, so each is preceded by the definition of
`CustomMessage`. The server worker that reads this stream with its one decoder delivers
`ping`; its second `Decode` meets the repeated definition, fails with `duplicateType`,
and the worker closes the connection: `pong` never reaches `receiveChan`. -/
theorem second_envelope_is_rejected_by_the_decoder :
    ∃ s1 s2 s3, clientConnected.bridge.outboundConn = some 1 ∧
      Send clientConnected ping = some s1 ∧
      Send s1 pong = some s2 ∧
      ((runMainLoop 3 s2).sys.conns 1).written =
        [.typeDef customMessageTypeId, .value customMessageTypeId ping,
         .typeDef customMessageTypeId, .value customMessageTypeId pong] ∧
      (runMainLoop 3 s2).sys.bridge.sendChan.buf = [] ∧
      (Decoder.Decode { wireType := [customMessageTypeId] }
          (freshConn [.typeDef customMessageTypeId, .value customMessageTypeId pong])).1 =
        .error .duplicateType ∧
      handleInboundConnection 3
          (serverStart ((runMainLoop 3 s2).sys.conns 1).written) 1 = .returned s3 ∧
      s3.bridge.receiveChan.buf = [ping] ∧
      (s3.conns 1).closes = 1 ∧
      (s3.conns 1).incoming = [.value customMessageTypeId pong] :=
  ⟨_, _, _, rfl, rfl, rfl, rfl, rfl, rfl, rfl, rfl, rfl, rfl⟩

/-! ## Reconnecting -/

/-- A deferred close in front of an unfinished body does not run. -/
theorem deferConnClose_unfinished (c : Conn) (o : Outcome) (h : o.unfinished) :
    deferConnClose c o = o := by
  cases o <;> first | rfl | exact absurd h id

/-- The end of a call that is still unfinished: its frame stays on the stack. -/
theorem popFrame_unfinished (o : Outcome) (h : o.unfinished) : popFrame o = o := by
  cases o <;> first | rfl | exact absurd h id

/-- One call of `connectToRemoteAndRead`, spelled out on the state it is entered with. -/
theorem connectToRemoteAndRead_step (fuel : Nat) (env : Env) (s : Sys) :
    connectToRemoteAndRead (fuel + 1) env s =
      if env.maxDepth ≤ s.depth then .fatal s
      else
        match createSecureDialer env s.bridge.certFile with
        | .error _ => .fatal { s with depth := s.depth + 1 }
        | .ok config =>
          match env.DialWithDialer s.dials 3 s.bridge.remoteAddr config with
          | .error _ =>
            popFrame (connectToRemoteAndRead fuel env
              { s with
                depth := s.depth + 1
                dials := s.dials + 1
                trace := s.trace ++ [.dial 3 s.bridge.remoteAddr config] ++ [.sleep 3] })
          | .ok outboundConn =>
            popFrame (deferConnClose outboundConn (connectedLoop fuel env
              { s with
                depth := s.depth + 1
                dials := s.dials + 1
                trace := s.trace ++ [.dial 3 s.bridge.remoteAddr config]
                bridge := { s.bridge with outboundConn := some outboundConn } }
              outboundConn NewDecoder)) := by
  rw [connectToRemoteAndRead]

/-- The client goroutine never returns and never panics, and closes no connection: in
both of its branches the call of itself comes before the `return` or `break` that would
let the deferred `outboundConn.Close()` run. -/
theorem connectToRemoteAndRead_closes_nothing (fuel : Nat) :
    (∀ (env : Env) (s : Sys),
      (connectToRemoteAndRead fuel env s).unfinished ∧
      ∀ c, ((connectToRemoteAndRead fuel env s).sys.conns c).closes = (s.conns c).closes) ∧
    (∀ (env : Env) (s : Sys) (c0 : Conn) (decoder : Decoder),
      (connectedLoop fuel env s c0 decoder).unfinished ∧
      ∀ c, ((connectedLoop fuel env s c0 decoder).sys.conns c).closes =
        (s.conns c).closes) := by
  induction fuel with
  | zero =>
    refine ⟨fun env s => ?_, fun env s c0 decoder => ?_⟩
    · rw [connectToRemoteAndRead]; exact ⟨trivial, fun _ => rfl⟩
    · rw [connectedLoop]; exact ⟨trivial, fun _ => rfl⟩
  | succ n ih =>
    obtain ⟨ihc, ihl⟩ := ih
    refine ⟨fun env s => ?_, fun env s c0 decoder => ?_⟩
    · rw [connectToRemoteAndRead_step]
      split
      · exact ⟨trivial, fun _ => rfl⟩
      · cases hcfg : createSecureDialer env s.bridge.certFile with
        | error e => exact ⟨trivial, fun _ => rfl⟩
        | ok config =>
          simp only []
          cases hd : env.DialWithDialer s.dials 3 s.bridge.remoteAddr config with
          | error e =>
            simp only []
            have h := ihc env
              { s with
                depth := s.depth + 1
                dials := s.dials + 1
                trace := s.trace ++ [.dial 3 s.bridge.remoteAddr config] ++ [.sleep 3] }
            rw [popFrame_unfinished _ h.1]
            exact h
          | ok outboundConn =>
            simp only []
            have h := ihl env
              { s with
                depth := s.depth + 1
                dials := s.dials + 1
                trace := s.trace ++ [.dial 3 s.bridge.remoteAddr config]
                bridge := { s.bridge with outboundConn := some outboundConn } }
              outboundConn NewDecoder
            rw [deferConnClose_unfinished _ _ h.1, popFrame_unfinished _ h.1]
            exact h
    · rw [connectedLoop]
      have hcl : ∀ (dec : Decoder) (w : ConnState),
          (dec.Decode w).2.2.closes = w.closes := by
        intro dec w
        unfold Decoder.Decode
        split
        · rfl
        · split <;> rfl
      rcases hd : decoder.Decode (s.conns c0) with ⟨r, decoder1, w⟩
      have hw : w.closes = (s.conns c0).closes := by
        have := hcl decoder (s.conns c0)
        rw [hd] at this
        exact this
      have hupd : ∀ c, (Function.update s.conns c0 w c).closes = (s.conns c).closes := by
        intro c
        by_cases hc : c = c0
        · subst hc; simp [hw]
        · simp [Function.update, hc]
      cases r with
      | error e =>
        simp only []
        have h := ihc env
          { s with conns := Function.update s.conns c0 w, trace := s.trace ++ [.sleep 3] }
        exact ⟨h.1, fun c => (h.2 c).trans (hupd c)⟩
      | ok msg =>
        simp only []
        cases hs : Chan.send s.bridge.sendChan msg with
        | none => exact ⟨trivial, hupd⟩
        | some ch =>
          simp only []
          have h := ihl env
            { s with
              conns := Function.update s.conns c0 w
              bridge := { s.bridge with sendChan := ch } }
            c0 decoder1
          exact ⟨h.1, fun c => (h.2 c).trans (hupd c)⟩

/-- Claim C5 fails on the code. The client dials connection 1, whose peer closes at once
(end of stream); the first re-dial fails and the second reaches connection 2.
* After the failure and the 3 second delay, the failed connection 1 is still
  `outboundConn` and has not been closed; so it is after the failed re-dial.
* An envelope sent in that state is written by the send loop on connection 1.
* Once the re-dial has succeeded `outboundConn` is connection 2, and connection 1 has
  still not been closed. -/
theorem failed_connection_remains_current :
    (connectToRemoteAndRead 2 exampleEnv clientStartClosed).sys.trace =
      [.dial 3 "srv:9443" { Certificates := [], RootCAs := some ["system-root"] },
       .sleep 3] ∧
    (connectToRemoteAndRead 2 exampleEnv clientStartClosed).sys.bridge.outboundConn =
      some 1 ∧
    ((connectToRemoteAndRead 2 exampleEnv clientStartClosed).sys.conns 1).closes = 0 ∧
    (connectToRemoteAndRead 3 exampleEnv clientStartClosed).sys.trace =
      [.dial 3 "srv:9443" { Certificates := [], RootCAs := some ["system-root"] },
       .sleep 3,
       .dial 3 "srv:9443" { Certificates := [], RootCAs := some ["system-root"] },
       .sleep 3] ∧
    (connectToRemoteAndRead 3 exampleEnv clientStartClosed).sys.bridge.outboundConn =
      some 1 ∧
    ((connectToRemoteAndRead 3 exampleEnv clientStartClosed).sys.conns 1).closes = 0 ∧
    (∃ s1 s2, Send (connectToRemoteAndRead 3 exampleEnv clientStartClosed).sys ping =
        some s1 ∧
      runMainLoopIteration s1 = .next s2 ∧
      (s2.conns 1).written =
        [.typeDef customMessageTypeId, .value customMessageTypeId ping]) ∧
    (connectToRemoteAndRead 4 exampleEnv clientStartClosed).sys.bridge.outboundConn =
      some 2 ∧
    ((connectToRemoteAndRead 4 exampleEnv clientStartClosed).sys.conns 1).closes = 0 :=
  ⟨by decide, by decide, by decide, by decide, by decide, by decide,
   ⟨_, _, rfl, rfl, by decide⟩, by decide, by decide⟩

/-! ## Encode failures in the send loop -/

/-- Type definitions carry no envelope. -/
theorem envelopes_append_typeDef (l : List Frame) (id : Nat) :
    envelopes (l ++ [.typeDef id]) = envelopes l := by
  induction l with
  | nil => rfl
  | cons f rest ih => cases f <;> simp [envelopes, ih]

/-- The connection after the type definition of a fresh encoder has been written. -/
theorem Write_typeDef_written (w w1 : ConnState) (f : Frame) (h : w.Write f = .ok w1) :
    w1.written = w.written ++ [f] ∧ w1.incoming = w.incoming ∧ w1.closes = w.closes := by
  unfold ConnState.Write at h
  split at h
  · cases h
  · split at h
    · cases h
    · cases h; exact ⟨rfl, rfl, rfl⟩
    · cases h; exact ⟨rfl, rfl, rfl⟩

/-- What a failing `Encode` of a fresh encoder leaves on the connection: when the very
first write fails, the connection as it was; else the connection after the write of the
type definition, and nothing more. -/
theorem Encode_failure_writes (w : ConnState) (m : CustomMessage) (e : GoError)
    (hfail : (NewEncoder.Encode w m).2.2 = some e) :
    (w.Write (.typeDef customMessageTypeId) = .error .writeFailed ∧
      (NewEncoder.Encode w m).2.1 = w) ∨
    (∃ w1, w.Write (.typeDef customMessageTypeId) = .ok w1 ∧
      (NewEncoder.Encode w m).2.1 = w1) := by
  have hsent : customMessageTypeId ∉ NewEncoder.sent := by simp [NewEncoder]
  unfold Encoder.Encode at hfail ⊢
  simp only [hsent, if_false] at hfail ⊢
  cases hw : w.Write (.typeDef customMessageTypeId) with
  | error e1 =>
    left
    refine ⟨?_, rfl⟩
    unfold ConnState.Write at hw
    split at hw
    · cases hw; rfl
    · split at hw
      · cases hw; rfl
      · cases hw
      · cases hw
  | ok w1 =>
    right
    refine ⟨w1, rfl, ?_⟩
    rw [hw] at hfail
    simp only [] at hfail ⊢
    cases hm : m.Content with
    | unregistered t => rfl
    | null =>
      rw [hm] at hfail
      simp only [] at hfail ⊢
      cases hv : w1.Write (.value customMessageTypeId m) with
      | error e2 => rfl
      | ok w2 => rw [hv] at hfail; cases hfail
    | str v =>
      rw [hm] at hfail
      simp only [] at hfail ⊢
      cases hv : w1.Write (.value customMessageTypeId m) with
      | error e2 => rfl
      | ok w2 => rw [hv] at hfail; cases hfail
    | int v =>
      rw [hm] at hfail
      simp only [] at hfail ⊢
      cases hv : w1.Write (.value customMessageTypeId m) with
      | error e2 => rfl
      | ok w2 => rw [hv] at hfail; cases hfail

/-- Claim C6, amended. When the encode of the head envelope `m` fails on the current
connection `c`, the iteration of `runMainLoop` completes (no panic, no exit) and the loop
goes on from the resulting state: the queue is `rest`, so the next iteration takes the
head of `rest` and `m` is not sent again; `outboundConn` is still `c`; no envelope has
been put on any connection: if already the first write fails, the connection is as it
was, and otherwise it is the connection after the write of the type definition that
precedes the value, and nothing else has been written; every other connection and the
inbound queue are untouched. -/
theorem runMainLoop_encode_failure (fuel : Nat) (s : Sys) (m : CustomMessage)
    (rest : List CustomMessage) (c : Conn) (e : GoError)
    (hq : s.bridge.sendChan.buf = m :: rest)
    (hc : s.bridge.outboundConn = some c)
    (hfail : (NewEncoder.Encode (s.conns c) m).2.2 = some e) :
    ∃ s1, runMainLoopIteration s = .next s1 ∧
      runMainLoop (fuel + 1) s = runMainLoop fuel s1 ∧
      s1.bridge.sendChan = { buf := rest, cap := s.bridge.sendChan.cap } ∧
      (∀ m2 rest2, rest = m2 :: rest2 →
        s1.bridge.sendChan.recv = some (m2, { buf := rest2, cap := s.bridge.sendChan.cap })) ∧
      s1.bridge.outboundConn = some c ∧
      (∀ c1, envelopes (s1.conns c1).written = envelopes (s.conns c1).written) ∧
      ((s.conns c).Write (.typeDef customMessageTypeId) = .error .writeFailed →
        s1.conns c = s.conns c) ∧
      ((s1.conns c).written = (s.conns c).written ∨
        (s1.conns c).written = (s.conns c).written ++ [.typeDef customMessageTypeId]) ∧
      (∀ c1, c1 ≠ c → s1.conns c1 = s.conns c1) ∧
      s1.bridge.receiveChan = s.bridge.receiveChan ∧
      (∀ w1, (s.conns c).Write (.typeDef customMessageTypeId) = .ok w1 →
        s1.conns c = w1) := by
  have hiter : runMainLoopIteration s = .next
      { s with
        bridge := { s.bridge with sendChan := { buf := rest, cap := s.bridge.sendChan.cap } }
        conns := Function.update s.conns c (NewEncoder.Encode (s.conns c) m).2.1 } := by
    simp [runMainLoopIteration, Chan.recv, hq, hc]
  refine ⟨_, hiter, ?_, rfl, ?_, hc, ?_, ?_, ?_, ?_, rfl, ?_⟩
  · rw [runMainLoop, hiter]
  · intro m2 rest2 h
    simp [Chan.recv, h]
  · intro c1
    by_cases h1 : c1 = c
    · subst h1
      simp only [Function.update_same]
      rcases Encode_failure_writes _ m e hfail with h | ⟨w1, hw, h⟩
      · rw [h.2]
      · rw [h, (Write_typeDef_written _ _ _ hw).1]
        exact envelopes_append_typeDef _ _
    · simp [Function.update, h1]
  · intro hfirst
    simp only [Function.update_same]
    rcases Encode_failure_writes _ m e hfail with h | ⟨w1, hw, h⟩
    · exact h.2
    · rw [hfirst] at hw; cases hw
  · simp only [Function.update_same]
    rcases Encode_failure_writes _ m e hfail with h | ⟨w1, hw, h⟩
    · left; rw [h.2]
    · right; rw [h, (Write_typeDef_written _ _ _ hw).1]
  · intro c1 h1
    simp [Function.update, h1]
  · intro w1 hw1
    simp only [Function.update_same]
    rcases Encode_failure_writes _ m e hfail with h | ⟨w2, hw, h⟩
    · rw [h.1] at hw1; cases hw1
    · rw [hw] at hw1; cases hw1; exact h

/-- The amended claim C6 at three concrete failures: an envelope whose content gob cannot encode, a
`ping` on a connection that carries no write, and a `ping` on a connection that fails
after one write; in all of them the loop goes on with `pong`. -/
theorem runMainLoop_encode_failure_witness :
    (∃ s1, runMainLoopIteration clientUnencodable = .next s1 ∧
      runMainLoop 1 clientUnencodable = runMainLoop 0 s1 ∧
      s1.bridge.sendChan = { buf := [pong], cap := 100 } ∧
      s1.bridge.outboundConn = some 1 ∧
      envelopes (s1.conns 1).written = []) ∧
    (∃ s1, runMainLoopIteration (clientBroken 0) = .next s1 ∧
      runMainLoop 1 (clientBroken 0) = runMainLoop 0 s1 ∧
      s1.bridge.sendChan = { buf := [pong], cap := 100 } ∧
      s1.bridge.outboundConn = some 1 ∧
      s1.conns 1 = (clientBroken 0).conns 1) ∧
    (∃ s1, runMainLoopIteration (clientBroken 1) = .next s1 ∧
      runMainLoop 1 (clientBroken 1) = runMainLoop 0 s1 ∧
      s1.bridge.sendChan = { buf := [pong], cap := 100 } ∧
      s1.bridge.outboundConn = some 1 ∧
      envelopes (s1.conns 1).written = []) := by
  refine ⟨?_, ?_, ?_⟩
  · obtain ⟨s1, h1, h2, h3, _, h5, h6, _⟩ :=
      runMainLoop_encode_failure 0 clientUnencodable unregisteredMsg [pong] 1 .notRegistered
        rfl rfl rfl
    exact ⟨s1, h1, h2, h3, h5, h6 1⟩
  · obtain ⟨s1, h1, h2, h3, _, h5, _, h7, _⟩ :=
      runMainLoop_encode_failure 0 (clientBroken 0) ping [pong] 1 .writeFailed rfl rfl rfl
    exact ⟨s1, h1, h2, h3, h5, h7 rfl⟩
  · obtain ⟨s1, h1, h2, h3, _, h5, h6, _⟩ :=
      runMainLoop_encode_failure 0 (clientBroken 1) ping [pong] 1 .writeFailed rfl rfl rfl
    exact ⟨s1, h1, h2, h3, h5, h6 1⟩

/-- Claim C6 as written fails on the code: a failed encode can transmit something.
* The head envelope has a content gob cannot encode: `Encode` fails with
  `notRegistered`, and the type definition has been written on connection 1.
* The connection fails after one write: `Encode` of `ping` fails with `writeFailed`,
  and the type definition has been written on connection 1. -/
theorem failed_encode_writes_type_definition :
    (∃ s1, runMainLoopIteration clientUnencodable = .next s1 ∧
      (NewEncoder.Encode (clientUnencodable.conns 1) unregisteredMsg).2.2 =
        some .notRegistered ∧
      (clientUnencodable.conns 1).written = [] ∧
      (s1.conns 1).written = [.typeDef customMessageTypeId]) ∧
    (∃ s1, runMainLoopIteration (clientBroken 1) = .next s1 ∧
      (NewEncoder.Encode ((clientBroken 1).conns 1) ping).2.2 = some .writeFailed ∧
      ((clientBroken 1).conns 1).written = [] ∧
      (s1.conns 1).written = [.typeDef customMessageTypeId]) :=
  ⟨⟨_, rfl, rfl, rfl, rfl⟩, ⟨_, rfl, rfl, rfl, rfl⟩⟩

/-! ## The server decode worker -/

/-- A `Decode` call does not change how often the connection was closed, nor what was
written on it. -/
theorem Decode_keeps (dec : Decoder) (w : ConnState) :
    (dec.Decode w).2.2.closes = w.closes ∧ (dec.Decode w).2.2.written = w.written ∧
      (dec.Decode w).2.2.writesLeft = w.writesLeft := by
  unfold Decoder.Decode
  split
  · exact ⟨rfl, rfl, rfl⟩
  · split <;> exact ⟨rfl, rfl, rfl⟩

/-- A run of successful decodes followed by a failure leaves the close count and the
written frames of the connection as they were. -/
theorem DecodesTo_keeps {dec : Decoder} {c0 : ConnState} {ms : List CustomMessage}
    {cfin : ConnState} (h : DecodesTo dec c0 ms cfin) :
    cfin.closes = c0.closes ∧ cfin.written = c0.written := by
  induction h with
  | stop dec c e dec1 c1 hd =>
    have := Decode_keeps dec c
    rw [hd] at this
    exact ⟨this.1, this.2.1⟩
  | step dec c m dec1 c1 ms c2 hd _ ih =>
    have := Decode_keeps dec c
    rw [hd] at this
    exact ⟨ih.1.trans this.1, ih.2.trans this.2.1⟩

/-- The decode loop of a worker, along a run of successful decodes followed by a
failure, with room in the inbound queue: it returns, having appended the decoded
envelopes in order and consumed the stream, and nothing else. -/
theorem handleInboundLoop_run {dec : Decoder} {c0 : ConnState} {ms : List CustomMessage}
    {cfin : ConnState} (h : DecodesTo dec c0 ms cfin) :
    ∀ (fuel : Nat) (s : Sys) (c : Conn), s.conns c = c0 →
      s.bridge.receiveChan.buf.length + ms.length ≤ s.bridge.receiveChan.cap →
      ms.length < fuel →
      handleInboundLoop fuel s c dec = .returned
        { s with
          bridge := { s.bridge with
            receiveChan := { buf := s.bridge.receiveChan.buf ++ ms,
                             cap := s.bridge.receiveChan.cap } }
          conns := Function.update s.conns c cfin } := by
  induction h with
  | stop dec c0 e dec1 c1 hd =>
    intro fuel s c hc _ hfuel
    obtain ⟨n, rfl⟩ : ∃ n, fuel = n + 1 := ⟨fuel - 1, by omega⟩
    rw [handleInboundLoop, hc, hd]
    simp
  | step dec c0 m dec1 c1 ms c2 hd _ ih =>
    intro fuel s c hc hroom hfuel
    obtain ⟨n, rfl⟩ : ∃ n, fuel = n + 1 := ⟨fuel - 1, by omega⟩
    simp only [List.length_cons] at hroom hfuel
    have hlt : s.bridge.receiveChan.buf.length < s.bridge.receiveChan.cap := by omega
    rw [handleInboundLoop, hc, hd]
    simp only [Chan.send, hlt, if_true]
    rw [ih n _ c (by simp) (by simp; omega) (by omega)]
    simp [List.append_assoc]

/-- The case the room hypothesis excludes: on a full inbound queue the worker parks in
its push, with the decoded envelope neither delivered nor the connection closed. -/
theorem handleInboundConnection_parks_on_full_queue (fuel : Nat) (s : Sys) (c : Conn)
    (m : CustomMessage) (dec1 : Decoder) (w : ConnState)
    (hdec : NewDecoder.Decode (s.conns c) = (.ok m, dec1, w))
    (hfull : s.bridge.receiveChan.cap ≤ s.bridge.receiveChan.buf.length) :
    handleInboundConnection (fuel + 1) s c =
      .blocked { s with conns := Function.update s.conns c w } := by
  have hnot : ¬ s.bridge.receiveChan.buf.length < s.bridge.receiveChan.cap := by omega
  unfold handleInboundConnection
  rw [handleInboundLoop, hdec]
  simp [Chan.send, hnot, deferConnClose]

/-- Every stream has such a run: whatever the peer sent, after finitely many successful
decodes a decode fails (at the latest with end of stream). -/
theorem DecodesTo_exists (n : Nat) :
    ∀ (dec : Decoder) (c : ConnState), c.incoming.length ≤ n →
      ∃ ms cfin, DecodesTo dec c ms cfin ∧ ms.length ≤ c.incoming.length := by
  have hshrink : ∀ (l : List Frame) (dec : Decoder) (b : Bool) (msg : CustomMessage)
      (dec1 : Decoder) (rest : List Frame),
      dec.decodeTypeSequence l b = .ok msg dec1 rest → rest.length < l.length := by
    intro l
    induction l with
    | nil => intro dec b msg dec1 rest h; simp [Decoder.decodeTypeSequence] at h
    | cons f tl ih =>
      intro dec b msg dec1 rest h
      cases f with
      | corrupt => simp [Decoder.decodeTypeSequence] at h
      | typeDef id =>
        rw [Decoder.decodeTypeSequence] at h
        split at h
        · cases h
        · have := ih _ _ _ _ _ h
          simp only [List.length_cons]; omega
      | value id m =>
        rw [Decoder.decodeTypeSequence] at h
        split at h
        · cases h; simp
        · cases h
  induction n with
  | zero =>
    intro dec c hlen
    have hnil : c.incoming = [] := List.length_eq_zero.mp (by omega)
    refine ⟨[], (dec.Decode c).2.2, ?_, by simp⟩
    by_cases hcl : 0 < c.closes
    · exact DecodesTo.stop dec c .readFailed dec _ (by simp [Decoder.Decode, hcl])
    · exact DecodesTo.stop dec c .EOF dec _
        (by simp [Decoder.Decode, hcl, hnil, Decoder.decodeTypeSequence])
  | succ n ih =>
    intro dec c hlen
    by_cases hcl : 0 < c.closes
    · exact ⟨[], c, DecodesTo.stop dec c .readFailed dec c
        (by simp [Decoder.Decode, hcl]), by simp⟩
    · cases hd : dec.decodeTypeSequence c.incoming true with
      | error e rest =>
        exact ⟨[], { c with incoming := rest }, DecodesTo.stop dec c e dec _
          (by simp [Decoder.Decode, hcl, hd]), by simp⟩
      | ok msg dec1 rest =>
        have hlt := hshrink _ _ _ _ _ _ hd
        obtain ⟨ms, cfin, hrun, hle⟩ := ih dec1 { c with incoming := rest }
          (by simp only []; omega)
        refine ⟨msg :: ms, cfin, DecodesTo.step dec c msg dec1 { c with incoming := rest } ms cfin
          (by simp [Decoder.Decode, hcl, hd]) hrun, ?_⟩
        simp only [List.length_cons] at hle ⊢
        omega

/-- Claim C7, amended. Let the stream of the inbound connection `c` be such that the
first decodes succeed with the envelopes `ms` and the next decode fails (with any error),
and let the inbound queue have room for them (a push on a full queue parks the worker).
Then `handleInboundConnection` returns; the inbound queue is the old one followed by
exactly `ms` in order; `c` has been closed exactly once more; and the listener, the
outbound connection, the outbound queue, every other connection, the started
goroutines and the record of system calls are unchanged. -/
theorem handleInboundConnection_delivers_then_stops (fuel : Nat) (s : Sys) (c : Conn)
    (ms : List CustomMessage) (cfin : ConnState)
    (hrun : DecodesTo NewDecoder (s.conns c) ms cfin)
    (hroom : s.bridge.receiveChan.buf.length + ms.length ≤ s.bridge.receiveChan.cap)
    (hfuel : ms.length < fuel) :
    ∃ s1, handleInboundConnection fuel s c = .returned s1 ∧
      s1.bridge.receiveChan =
        { buf := s.bridge.receiveChan.buf ++ ms, cap := s.bridge.receiveChan.cap } ∧
      (s1.conns c).closes = (s.conns c).closes + 1 ∧
      s1.conns c = cfin.Close ∧
      (s1.conns c).written = (s.conns c).written ∧
      (∀ c1, c1 ≠ c → s1.conns c1 = s.conns c1) ∧
      s1.bridge.inboundListener = s.bridge.inboundListener ∧
      s1.listenerCloses = s.listenerCloses ∧
      s1.bridge.outboundConn = s.bridge.outboundConn ∧
      s1.bridge.sendChan = s.bridge.sendChan ∧
      s1.started = s.started ∧
      s1.trace = s.trace := by
  have hk := DecodesTo_keeps hrun
  have hret : handleInboundConnection fuel s c = .returned
      { s with
        bridge := { s.bridge with
          receiveChan := { buf := s.bridge.receiveChan.buf ++ ms,
                           cap := s.bridge.receiveChan.cap } }
        conns := Function.update s.conns c cfin.Close } := by
    unfold handleInboundConnection
    rw [handleInboundLoop_run hrun fuel s c rfl hroom hfuel]
    simp [deferConnClose]
  refine ⟨_, hret, rfl, ?_, ?_, ?_, ?_, rfl, rfl, rfl, rfl, rfl, rfl⟩
  · simp [ConnState.Close, hk.1]
  · simp
  · simp [ConnState.Close, hk.2]
  · intro c1 h1
    simp [Function.update, h1]

/-- The amended claim C7 at a concrete stream: `ping`, `pong` (sent by one encoder), then a corrupt
message. The worker delivers `ping`, `pong` and closes connection 1 once. -/
theorem handleInboundConnection_delivers_then_stops_witness :
    ∃ s1, handleInboundConnection 3
        (serverStart [.typeDef customMessageTypeId, .value customMessageTypeId ping,
          .value customMessageTypeId pong, .corrupt]) 1 = .returned s1 ∧
      s1.bridge.receiveChan = { buf := [ping, pong], cap := 100 } ∧
      (s1.conns 1).closes = 1 ∧
      (∀ c1, c1 ≠ 1 → s1.conns c1 =
        freshConn [.typeDef customMessageTypeId, .value customMessageTypeId ping,
          .value customMessageTypeId pong, .corrupt]) ∧
      s1.bridge.outboundConn = none ∧
      s1.bridge.sendChan = { buf := [], cap := 100 } ∧
      s1.bridge.inboundListener = some 7 ∧
      s1.listenerCloses = 0 := by
  obtain ⟨s1, h1, h2, h3, _, _, h6, h7, h8, h9, h10, _⟩ :=
    handleInboundConnection_delivers_then_stops 3
      (serverStart [.typeDef customMessageTypeId, .value customMessageTypeId ping,
          .value customMessageTypeId pong, .corrupt]) 1 [ping, pong]
      { written := [], incoming := [], writesLeft := none, closes := 0 }
      (DecodesTo.step _ _ _ { wireType := [customMessageTypeId] }
        (freshConn [.value customMessageTypeId pong, .corrupt]) _ _ rfl
        (DecodesTo.step _ _ _ { wireType := [customMessageTypeId] }
          (freshConn [.corrupt]) _ _ rfl
          (DecodesTo.stop _ _ .malformed { wireType := [customMessageTypeId] } _ rfl)))
      (by decide) (by decide)
  exact ⟨s1, h1, h2, h3, h6, h9, h10, h7, h8⟩

/-- Once the decode loop of a worker has ended otherwise than by want of fuel, more
fuel does not change its outcome. -/
theorem handleInboundLoop_more_fuel (k : Nat) :
    ∀ (fuel : Nat) (s : Sys) (c : Conn) (decoder : Decoder),
      (∀ t, handleInboundLoop fuel s c decoder ≠ .outOfFuel t) →
      handleInboundLoop (fuel + k) s c decoder = handleInboundLoop fuel s c decoder := by
  intro fuel
  induction fuel with
  | zero =>
    intro s c decoder h
    exact absurd (by rw [handleInboundLoop]) (h s)
  | succ n ih =>
    intro s c decoder h
    rw [show n + 1 + k = (n + k) + 1 from by omega]
    rw [handleInboundLoop] at h ⊢
    rw [handleInboundLoop]
    rcases hd : decoder.Decode (s.conns c) with ⟨r, decoder1, w⟩
    rw [hd] at h
    cases r with
    | error e => rfl
    | ok msg =>
      simp only [] at h ⊢
      cases hs : Chan.send s.bridge.receiveChan msg with
      | none => rfl
      | some ch =>
        rw [hs] at h
        simp only [] at h ⊢
        exact ih _ _ _ h

/-- A stream of `n` envelopes of one encoder is a run of `n` successful decodes followed
by end of stream. -/
theorem DecodesTo_values (m : CustomMessage) (n : Nat) :
    DecodesTo { wireType := [customMessageTypeId] }
      (freshConn (List.replicate n (.value customMessageTypeId m)))
      (List.replicate n m) (freshConn []) := by
  induction n with
  | zero => exact DecodesTo.stop _ _ .EOF { wireType := [customMessageTypeId] } _ rfl
  | succ n ih =>
    exact DecodesTo.step _ _ m { wireType := [customMessageTypeId] }
      (freshConn (List.replicate n (.value customMessageTypeId m))) _ _ rfl ih

/-- Claim C7 as written fails on the code. The peer of connection 1 sends 101 envelopes
and closes: the first 101 decodes succeed and the next fails with end of stream. The
inbound queue of the server just built is empty and nobody receives. The worker delivers
100 envelopes and parks in the push of the last one: it does not return, whatever the
fuel, and connection 1 is not closed. -/
theorem worker_parks_on_long_stream :
    DecodesTo NewDecoder ((serverStart manyPings).conns 1) (List.replicate 101 ping)
      (freshConn []) ∧
    (handleInboundConnection 102 (serverStart manyPings) 1).isBlocked = true ∧
    (handleInboundConnection 102 (serverStart manyPings) 1).sys.bridge.receiveChan.buf =
      List.replicate 100 ping ∧
    ((handleInboundConnection 102 (serverStart manyPings) 1).sys.conns 1).closes = 0 ∧
    (∀ fuel s1, handleInboundConnection fuel (serverStart manyPings) 1 ≠ .returned s1) := by
  have hblocked : (handleInboundLoop 102 (serverStart manyPings) 1 NewDecoder).isBlocked =
      true := by decide
  refine ⟨?_, by decide, by decide, by decide, ?_⟩
  · exact DecodesTo.step _ _ ping { wireType := [customMessageTypeId] }
      (freshConn (List.replicate 100 (.value customMessageTypeId ping))) _ _ rfl
      (DecodesTo_values ping 100)
  · intro fuel s1 hret
    have hloop : ∃ t, handleInboundLoop fuel (serverStart manyPings) 1 NewDecoder =
        .returned t := by
      unfold handleInboundConnection at hret
      cases ho : handleInboundLoop fuel (serverStart manyPings) 1 NewDecoder with
      | returned t => exact ⟨t, rfl⟩
      | blocked t => rw [ho] at hret; cases hret
      | panicked t => rw [ho] at hret; cases hret
      | fatal t => rw [ho] at hret; cases hret
      | outOfFuel t => rw [ho] at hret; cases hret
    obtain ⟨t, ht⟩ := hloop
    by_cases hle : fuel ≤ 102
    · have hmore := handleInboundLoop_more_fuel (102 - fuel) fuel (serverStart manyPings) 1
        NewDecoder (by intro u hu; rw [ht] at hu; cases hu)
      rw [show fuel + (102 - fuel) = 102 from by omega, ht] at hmore
      rw [hmore] at hblocked
      cases hblocked
    · have hmore := handleInboundLoop_more_fuel (fuel - 102) 102 (serverStart manyPings) 1
        NewDecoder (by
          intro u hu
          rw [hu] at hblocked
          cases hblocked)
      rw [show 102 + (fuel - 102) = fuel from by omega, ht] at hmore
      rw [← hmore] at hblocked
      cases hblocked

/-! ## Dial failures -/

/-- A deferred close of a connection does not touch the record of system calls. -/
theorem deferConnClose_trace (c : Conn) (o : Outcome) :
    (deferConnClose c o).sys.trace = o.sys.trace := by
  cases o <;> rfl

/-- The end of a call does not touch the record of system calls. -/
theorem popFrame_trace (o : Outcome) : (popFrame o).sys.trace = o.sys.trace := by
  cases o <;> rfl

/-- The client goroutine only ever adds to the record of system calls. -/
theorem connectToRemoteAndRead_trace_grows (fuel : Nat) :
    (∀ (env : Env) (s : Sys), s.trace <+: (connectToRemoteAndRead fuel env s).sys.trace) ∧
    (∀ (env : Env) (s : Sys) (c0 : Conn) (decoder : Decoder),
      s.trace <+: (connectedLoop fuel env s c0 decoder).sys.trace) := by
  induction fuel with
  | zero =>
    refine ⟨fun env s => ?_, fun env s c0 decoder => ?_⟩
    · rw [connectToRemoteAndRead]; exact List.prefix_refl _
    · rw [connectedLoop]; exact List.prefix_refl _
  | succ n ih =>
    obtain ⟨ihc, ihl⟩ := ih
    refine ⟨fun env s => ?_, fun env s c0 decoder => ?_⟩
    · rw [connectToRemoteAndRead_step]
      split
      · exact List.prefix_refl _
      · cases hcfg : createSecureDialer env s.bridge.certFile with
        | error e => exact List.prefix_refl _
        | ok config =>
          simp only []
          cases hd : env.DialWithDialer s.dials 3 s.bridge.remoteAddr config with
          | error e =>
            simp only []
            rw [popFrame_trace]
            refine List.IsPrefix.trans ?_ (ihc env _)
            simp only [List.append_assoc]
            exact List.prefix_append _ _
          | ok outboundConn =>
            simp only []
            rw [popFrame_trace, deferConnClose_trace]
            refine List.IsPrefix.trans ?_ (ihl env _ _ _)
            exact List.prefix_append _ _
    · rw [connectedLoop]
      rcases hd : decoder.Decode (s.conns c0) with ⟨r, decoder1, w⟩
      cases r with
      | error e =>
        simp only []
        refine List.IsPrefix.trans ?_ (ihc env _)
        exact List.prefix_append _ _
      | ok msg =>
        simp only []
        cases hs : Chan.send s.bridge.sendChan msg with
        | none => exact List.prefix_refl _
        | some ch =>
          simp only []
          refine List.IsPrefix.trans ?_ (ihl env _ _ _)
          exact List.prefix_refl _

/-- After `n` failed dials, for which the stack has room, the goroutine is where it
started, `n` frames deeper and `n` dials and `n` sleeps later. -/
theorem connectToRemoteAndRead_after_failures (env : Env) (config : TLSConfig) (fuel : Nat)
    (n : Nat) :
    ∀ s : Sys, createSecureDialer env s.bridge.certFile = .ok config →
      s.depth + n ≤ env.maxDepth →
      (∀ i, i < n →
        ∃ e, env.DialWithDialer (s.dials + i) 3 s.bridge.remoteAddr config = .error e) →
      connectToRemoteAndRead (fuel + n) env s =
        connectToRemoteAndRead fuel env
          { s with
            depth := s.depth + n
            dials := s.dials + n
            trace := s.trace ++ retries n s.bridge.remoteAddr config } := by
  induction n with
  | zero =>
    intro s _ _ _
    simp [retries]
  | succ n ih =>
    intro s hcfg hstack hfail
    obtain ⟨e, he⟩ := hfail 0 (by omega)
    have hroom : ¬ env.maxDepth ≤ s.depth := by omega
    rw [show fuel + (n + 1) = (fuel + n) + 1 from rfl, connectToRemoteAndRead_step,
      if_neg hroom, hcfg]
    simp only [Nat.add_zero] at he
    simp only [he]
    rw [popFrame_unfinished _ ((connectToRemoteAndRead_closes_nothing (fuel + n)).1 env _).1]
    have hrest := ih
      { s with
        depth := s.depth + 1
        dials := s.dials + 1
        trace := s.trace ++ [.dial 3 s.bridge.remoteAddr config] ++ [.sleep 3] }
      hcfg
      (by simp only []; omega)
      (by
        intro i hi
        obtain ⟨e1, he1⟩ := hfail (i + 1) (by omega)
        exact ⟨e1, by simpa [Nat.add_assoc, Nat.add_comm 1 i] using he1⟩)
    rw [hrest]
    simp only [retries, List.append_assoc, Nat.add_assoc, Nat.add_comm 1 n, List.cons_append,
      List.nil_append]

/-- Claim C9, amended. Let the system trust store load, let the first `n` dial attempts
of `connectToRemoteAndRead` fail, and let the stack have room for the `n + 1` nested calls.
Then
* after these `n` attempts the goroutine has not ended, and the state differs from the
  initial one only in the depth of the stack, the dial counter and the record of system
  calls, which has gained `n` times a dial of the bridge's remote address with a 3 second
  timeout followed by a 3 second sleep: the bridge struct, hence `outboundConn` and both
  queues, is untouched;
* the run continues as a run from that state, and as soon as there is fuel for it, it
  makes an `(n+1)`-th dial of the same address with the same timeout and configuration;
* `Send` and `Receive` return in that state what they return in the initial one.
What the send loop does with an envelope while no connection is installed is not part
of this statement. -/
theorem dial_failures_are_retried (env : Env) (s : Sys) (config : TLSConfig) (n fuel : Nat)
    (hroots : createSecureDialer env s.bridge.certFile = .ok config)
    (hstack : s.depth + n < env.maxDepth)
    (hfail : ∀ i, i < n →
      ∃ e, env.DialWithDialer (s.dials + i) 3 s.bridge.remoteAddr config = .error e) :
    connectToRemoteAndRead n env s =
      .outOfFuel
        { s with
          depth := s.depth + n
          dials := s.dials + n
          trace := s.trace ++ retries n s.bridge.remoteAddr config } ∧
    connectToRemoteAndRead (fuel + n) env s =
      connectToRemoteAndRead fuel env
        { s with
          depth := s.depth + n
          dials := s.dials + n
          trace := s.trace ++ retries n s.bridge.remoteAddr config } ∧
    (s.trace ++ retries n s.bridge.remoteAddr config ++
        [.dial 3 s.bridge.remoteAddr config]) <+:
      (connectToRemoteAndRead (fuel + 1 + n) env s).sys.trace ∧
    (∀ m : CustomMessage,
      Option.map (fun t : Sys => t.bridge)
          (Send { s with
            depth := s.depth + n
            dials := s.dials + n
            trace := s.trace ++ retries n s.bridge.remoteAddr config } m) =
        Option.map (fun t : Sys => t.bridge) (Send s m)) ∧
    Option.map (fun r : CustomMessage × Sys => (r.1, r.2.bridge))
        (Receive { s with
          depth := s.depth + n
          dials := s.dials + n
          trace := s.trace ++ retries n s.bridge.remoteAddr config }) =
      Option.map (fun r : CustomMessage × Sys => (r.1, r.2.bridge)) (Receive s) := by
  have hle : s.depth + n ≤ env.maxDepth := by omega
  refine ⟨?_, connectToRemoteAndRead_after_failures env config fuel n s hroots hle hfail,
    ?_, ?_, ?_⟩
  · have h := connectToRemoteAndRead_after_failures env config 0 n s hroots hle hfail
    rw [Nat.zero_add] at h
    rw [h, connectToRemoteAndRead]
  · have hroom : ¬ env.maxDepth ≤ s.depth + n := by omega
    rw [connectToRemoteAndRead_after_failures env config (fuel + 1) n s hroots hle hfail,
      connectToRemoteAndRead_step]
    simp only [hroots, if_neg hroom]
    split
    · rw [popFrame_trace]
      refine List.IsPrefix.trans ?_ ((connectToRemoteAndRead_trace_grows fuel).1 env _)
      exact List.prefix_append _ _
    · rw [popFrame_trace, deferConnClose_trace]
      refine List.IsPrefix.trans ?_ ((connectToRemoteAndRead_trace_grows fuel).2 env _ _ _)
      exact List.prefix_refl _
  · intro m
    unfold Send
    cases Chan.send s.bridge.sendChan m <;> rfl
  · unfold Receive
    cases Chan.recv s.bridge.receiveChan <;> rfl

/-- The amended claim C9 for a client whose server is unreachable: after four failed
dials nothing but four dials and four sleeps has happened, and a fifth dial follows. -/
theorem dial_failures_are_retried_witness :
    connectToRemoteAndRead 4 unreachableEnv clientStart =
      .outOfFuel
        { clientStart with
          depth := 4
          dials := 4
          trace := retries 4 "srv:9443"
            { Certificates := [], RootCAs := some ["system-root"] } } ∧
    (retries 4 "srv:9443" { Certificates := [], RootCAs := some ["system-root"] } ++
        [.dial 3 "srv:9443" { Certificates := [], RootCAs := some ["system-root"] }]) <+:
      (connectToRemoteAndRead 5 unreachableEnv clientStart).sys.trace :=
  ⟨(dial_failures_are_retried unreachableEnv clientStart
      { Certificates := [], RootCAs := some ["system-root"] } 4 0 rfl (by decide)
      (fun _ _ => ⟨.dialFailed, rfl⟩)).1,
   (dial_failures_are_retried unreachableEnv clientStart
      { Certificates := [], RootCAs := some ["system-root"] } 4 0 rfl (by decide)
      (fun _ _ => ⟨.dialFailed, rfl⟩)).2.2.1⟩

/-- Claim C9 as written fails on the code, at three inputs.
* The system trust store does not load: the first call ends the process (`log.Fatal`)
  before any dial, whatever the fuel; so already for `n = 0` no dial is attempted.
* The server is unreachable and the stack admits three nested calls: after three failed
  dials the fourth call overflows the stack and ends the process; no fourth dial is made.
* The server is unreachable: after four failed dials `outboundConn` is still nil, and an
  envelope the application sends in that state makes the send loop panic. -/
theorem dial_retry_claim_fails :
    (∀ fuel, ∃ s1, connectToRemoteAndRead (fuel + 1) noRootsEnv clientStart = .fatal s1 ∧
      s1.dials = 0 ∧ s1.trace = []) ∧
    (∀ fuel, ∃ s1, connectToRemoteAndRead (fuel + 4) smallStackEnv clientStart = .fatal s1 ∧
      s1.dials = 3 ∧ s1.depth = 3 ∧
      s1.trace = retries 3 "srv:9443"
        { Certificates := [], RootCAs := some ["system-root"] }) ∧
    (∃ s1 s2 s3, connectToRemoteAndRead 4 unreachableEnv clientStart = .outOfFuel s1 ∧
      s1.dials = 4 ∧
      s1.bridge.outboundConn = none ∧
      Send s1 ping = some s2 ∧
      runMainLoop 5 s2 = .panicked s3 ∧
      s3.bridge.sendChan.buf = []) := by
  refine ⟨fun fuel => ⟨{ clientStart with depth := 1 }, ?_, rfl, rfl⟩, fun fuel => ?_,
    ⟨_, _, _, rfl, rfl, rfl, rfl, rfl, rfl⟩⟩
  · rw [connectToRemoteAndRead_step]
    rfl
  · refine ⟨{ clientStart with
        depth := 3
        dials := 3
        trace := retries 3 "srv:9443"
          { Certificates := [], RootCAs := some ["system-root"] } }, ?_, rfl, rfl, rfl⟩
    rw [show fuel + 4 = (fuel + 1) + 3 from rfl,
      connectToRemoteAndRead_after_failures smallStackEnv
        { Certificates := [], RootCAs := some ["system-root"] } (fuel + 1) 3 clientStart rfl
        (by decide) (fun _ _ => ⟨.dialFailed, rfl⟩),
      connectToRemoteAndRead_step]
    rfl

/-! ## Further facts about the two defects of the relay path -/

/-- A deferred close of a connection does not touch the bridge's queues. -/
theorem deferConnClose_receiveChan (c : Conn) (o : Outcome) :
    (deferConnClose c o).sys.bridge.receiveChan = o.sys.bridge.receiveChan := by
  cases o <;> rfl

/-- The end of a call does not touch the bridge's queues. -/
theorem popFrame_receiveChan (o : Outcome) :
    (popFrame o).sys.bridge.receiveChan = o.sys.bridge.receiveChan := by
  cases o <;> rfl

/-- The client goroutine never puts anything on `receiveChan`, whatever the network
delivers. -/
theorem connectToRemoteAndRead_receiveChan (fuel : Nat) :
    (∀ (env : Env) (s : Sys),
      (connectToRemoteAndRead fuel env s).sys.bridge.receiveChan = s.bridge.receiveChan) ∧
    (∀ (env : Env) (s : Sys) (c0 : Conn) (decoder : Decoder),
      (connectedLoop fuel env s c0 decoder).sys.bridge.receiveChan =
        s.bridge.receiveChan) := by
  induction fuel with
  | zero =>
    refine ⟨fun env s => ?_, fun env s c0 decoder => ?_⟩
    · rw [connectToRemoteAndRead]; rfl
    · rw [connectedLoop]; rfl
  | succ n ih =>
    obtain ⟨ihc, ihl⟩ := ih
    refine ⟨fun env s => ?_, fun env s c0 decoder => ?_⟩
    · rw [connectToRemoteAndRead_step]
      split
      · rfl
      · cases hcfg : createSecureDialer env s.bridge.certFile with
        | error e => rfl
        | ok config =>
          simp only []
          cases hd : env.DialWithDialer s.dials 3 s.bridge.remoteAddr config with
          | error e => simp only []; rw [popFrame_receiveChan, ihc]
          | ok outboundConn =>
            simp only []
            rw [popFrame_receiveChan, deferConnClose_receiveChan, ihl]
    · rw [connectedLoop]
      rcases hd : decoder.Decode (s.conns c0) with ⟨r, decoder1, w⟩
      cases r with
      | error e => simp only []; rw [ihc]
      | ok msg =>
        simp only []
        cases hs : Chan.send s.bridge.sendChan msg with
        | none => rfl
        | some ch => simp only []; rw [ihl]

/-- Whatever two encodable envelopes a client sends on a healthy connection, the send
loop writes each behind a type definition of its own, and a server worker reading that
stream delivers the first envelope only. -/
theorem second_of_two_envelopes_is_lost (m1 m2 : CustomMessage)
    (h1 : ∀ t, m1.Content ≠ .unregistered t) (h2 : ∀ t, m2.Content ≠ .unregistered t) :
    ((runMainLoop 3
        (Sys.start
          { clientBridge with
            outboundConn := some 1
            sendChan := { buf := [m1, m2], cap := 100 } }
          [] (network []))).sys.conns 1).written =
      [.typeDef customMessageTypeId, .value customMessageTypeId m1,
       .typeDef customMessageTypeId, .value customMessageTypeId m2] ∧
    (handleInboundConnection 3
        (serverStart
          [.typeDef customMessageTypeId, .value customMessageTypeId m1,
           .typeDef customMessageTypeId, .value customMessageTypeId m2]) 1
      ).sys.bridge.receiveChan.buf = [m1] := by
  constructor
  · cases hc1 : m1.Content <;> cases hc2 : m2.Content <;>
      first
      | exact absurd hc1 (h1 _)
      | exact absurd hc2 (h2 _)
      | simp [runMainLoop, runMainLoopIteration, Chan.recv, Sys.start, clientBridge,
          network, freshConn, Encoder.Encode, NewEncoder, ConnState.Write, hc1, hc2,
          Outcome.sys, customMessageTypeId]
  · simp [handleInboundConnection, handleInboundLoop, serverStart, Sys.start, network,
      freshConn, Decoder.Decode, Decoder.decodeTypeSequence, NewDecoder, serverBridge,
      makeChan, Chan.send, deferConnClose, Outcome.sys, customMessageTypeId, firstUserId]

end GoChanTcpBridge
